import Mathlib

set_option maxRecDepth 8000

/-!
Verification development for the OGE essay-evaluation service
(`models/model.py` and `app.py`).

The Python source is shallowly embedded: pure functions become Lean
functions, the external GigaChat model service becomes an explicit
oracle parameter, machine integers are `Int`/`Nat` (Python integers are
unbounded, so no modular arithmetic is needed), and fallible code
returns `Except`/`Option`.
-/

/-! ## Word-count gate (`count_words_oge`, model.py lines 20-46) -/

/-- A Python runtime value, as far as `count_words_oge` inspects one:
`isinstance(text, str)` distinguishes strings from every other value,
and `not text` is falsity of the value (for a string: emptiness). The
non-string constructors are representatives of the non-string values a
caller can pass. -/
inductive PyVal where
  | str (s : String)
  | noneVal
  | intVal (n : Int)
  | listVal (xs : List String)
deriving DecidableEq

/-- Python `c.isalpha()`, modelled on the Latin and Cyrillic repertoire
the program works with (ASCII letters, Cyrillic А..я plus ё/Ё). -/
def pyIsAlpha (c : Char) : Bool :=
  (65 ≤ c.toNat && c.toNat ≤ 90) || (97 ≤ c.toNat && c.toNat ≤ 122) ||
  (0x410 ≤ c.toNat && c.toNat ≤ 0x44F) || c.toNat = 0x451 || c.toNat = 0x401

/-- The regex character class `[А-ЯЁ]` (uppercase Cyrillic). -/
def isUpperRu (c : Char) : Bool :=
  (0x410 ≤ c.toNat && c.toNat ≤ 0x42F) || c.toNat = 0x401

/-- The regex character class `[А-ЯЯёЁ]` (uppercase Cyrillic plus ё/Ё);
note it does NOT contain the lowercase letters а-я. -/
def isNameCls (c : Char) : Bool :=
  (0x410 ≤ c.toNat && c.toNat ≤ 0x42F) || c.toNat = 0x451 || c.toNat = 0x401

/-- The regex class `\s` (whitespace), on the ASCII range Python's `re`
uses for these inputs. -/
def isWsRe (c : Char) : Bool :=
  c = ' ' || c = '\t' || c = '\n' || c = '\r' || c.toNat = 11 || c.toNat = 12

/-- Consume the final `[А-ЯЯёЁ]+` of the initials patterns: one or more
name-class characters, greedily. Returns the rest of the input. -/
def dropName : List Char → Option (List Char)
  | c :: rest => if isNameCls c then some (rest.dropWhile isNameCls) else none
  | [] => none

/-- Match `[А-ЯЁ]\.\s*` (one initial, its dot, trailing whitespace) at
the head of the input; on success returns the input after the span.
Greediness of `\s*` is safe because whitespace and the classes that
follow it in both patterns are disjoint. -/
def matchInitial : List Char → Option (List Char)
  | a :: b :: rest =>
    if isUpperRu a && b == '.' then some (rest.dropWhile isWsRe) else none
  | _ => none

/-- Match the regex `[А-ЯЁ]\.\s*[А-ЯЁ]\.\s*[А-ЯЯёЁ]+` (two initials and
a surname, model.py line 31) at the head of the input; on success
returns the input after the matched span. -/
def matchP1 (cs : List Char) : Option (List Char) :=
  match matchInitial cs with
  | some r1 =>
    match matchInitial r1 with
    | some r2 => dropName r2
    | none => none
  | none => none

/-- Match the regex `[А-ЯЁ]\.\s*[А-ЯЯёЁ]+` (one initial and a surname,
model.py line 32) at the head of the input. -/
def matchP2 (cs : List Char) : Option (List Char) :=
  match matchInitial cs with
  | some r1 => dropName r1
  | none => none

/-- The replacement text `'ФИО'` of both `re.sub` calls. -/
def fioChars : List Char := ['Ф', 'И', 'О']

/-- `re.sub` with the two-initials pattern: scan left to right, at each
position try the pattern; on a match emit `ФИО` and continue after the
match (the replacement is not rescanned), otherwise keep the character.
The fuel argument makes the recursion structural; every step consumes at
least one character, so `fuel = input length` is always sufficient. -/
def sub1F : Nat → List Char → List Char
  | _, [] => []
  | 0, cs => cs
  | fuel + 1, c :: rest =>
    match matchP1 (c :: rest) with
    | some rest' => fioChars ++ sub1F fuel rest'
    | none => c :: sub1F fuel rest

/-- `re.sub(r'([А-ЯЁ]\.\s*[А-ЯЁ]\.\s*[А-ЯЯёЁ]+)', 'ФИО', text)`. -/
def sub1 (cs : List Char) : List Char := sub1F cs.length cs

/-- Like `sub1F` but for the one-initial pattern. -/
def sub2F : Nat → List Char → List Char
  | _, [] => []
  | 0, cs => cs
  | fuel + 1, c :: rest =>
    match matchP2 (c :: rest) with
    | some rest' => fioChars ++ sub2F fuel rest'
    | none => c :: sub2F fuel rest

/-- `re.sub(r'([А-ЯЁ]\.\s*[А-ЯЯёЁ]+)', 'ФИО', text)`. -/
def sub2 (cs : List Char) : List Char := sub2F cs.length cs

/-- Accumulator-passing core of the tokenizer: split on whitespace,
dropping empty chunks. -/
def splitWsAux : List Char → List Char → List (List Char)
  | [], acc => if acc.isEmpty then [] else [acc.reverse]
  | c :: rest, acc =>
    if isWsRe c then
      if acc.isEmpty then splitWsAux rest [] else acc.reverse :: splitWsAux rest []
    else splitWsAux rest (c :: acc)

/-- The external `nltk.word_tokenize(text, language='russian')`
collaborator, modelled as whitespace segmentation. The source strips
edge punctuation from every token and keeps only tokens containing a
letter, which makes the surviving-word count agree with the nltk
tokenizer (which additionally splits punctuation into separate,
letterless tokens) on the inputs at issue. -/
def word_tokenize (cs : List Char) : List (List Char) := splitWsAux cs []

/-- The punctuation set of `word.strip('.,!?;:"()[]{}«»-–—')`
(model.py line 41); the two braces are written with `Char.ofNat`. -/
def stripChars : List Char :=
  ['.', ',', '!', '?', ';', ':', '"', '(', ')', '[', ']',
   Char.ofNat 123, Char.ofNat 125, '«', '»', '-', '–', '—']

/-- Python `word.strip('.,!?;:"()[]{}«»-–—')`: remove the given
characters from both ends of the token. -/
def stripEdges (w : List Char) : List Char :=
  ((w.dropWhile (stripChars.contains ·)).reverse.dropWhile (stripChars.contains ·)).reverse

/-- The `valid_words` list built by `count_words_oge`: substitute the
initials patterns, tokenize, strip edge punctuation, keep tokens that
are nonempty and contain at least one letter. -/
def valid_words (cs : List Char) : List (List Char) :=
  ((word_tokenize (sub2 (sub1 cs))).map stripEdges).filter
    (fun w => !w.isEmpty && w.any pyIsAlpha)

/-- `count_words_oge(text)` (model.py lines 20-46): `0` for a non-string
or falsy (empty) input, otherwise the number of surviving tokens. -/
def count_words_oge : PyVal → Nat
  | .str s => if s.data.isEmpty then 0 else (valid_words s.data).length
  | _ => 0

/-! ## JSON values and `json.loads` (used by the resilient parser) -/

/-- A JSON value as produced by Python's `json.loads`. Object members
are a key-value list with unique keys (later duplicates overwrite
earlier ones during parsing, as in a Python dict); numeric literals are
modelled as integers, the only numerals the rubric schema uses. -/
inductive JsonVal where
  | null
  | bool (b : Bool)
  | num (n : Int)
  | str (cs : List Char)
  | arr (xs : List JsonVal)
  | obj (members : List (List Char × JsonVal))

/-- The character `{` (written with `Char.ofNat`). -/
def lbraceC : Char := Char.ofNat 123

/-- The character `}` (written with `Char.ofNat`). -/
def rbraceC : Char := Char.ofNat 125

/-- JSON inter-token whitespace (the exact set Python's `json` accepts). -/
def jsonWs (c : Char) : Bool := c = ' ' || c = '\t' || c = '\n' || c = '\r'

/-- Skip JSON whitespace. -/
def skipWs (cs : List Char) : List Char := cs.dropWhile jsonWs

/-- JSON string escapes (`\uXXXX` is not modelled; no input at issue
uses it, and an unmodelled escape is a parse failure). -/
def escChar (e : Char) : Option Char :=
  if e = '"' then some '"'
  else if e = '\\' then some '\\'
  else if e = '/' then some '/'
  else if e = 'b' then some (Char.ofNat 8)
  else if e = 'f' then some (Char.ofNat 12)
  else if e = 'n' then some '\n'
  else if e = 'r' then some '\r'
  else if e = 't' then some '\t'
  else none

/-- Parse the body of a JSON string (the opening quote already
consumed); returns the decoded characters and the rest of the input. -/
def parseStrBody : List Char → Option (List Char × List Char)
  | [] => none
  | c :: rest =>
    if c = '"' then some ([], rest)
    else if c = '\\' then
      match rest with
      | e :: rest' =>
        match escChar e with
        | some ec => (parseStrBody rest').map (fun p => (ec :: p.1, p.2))
        | none => none
      | [] => none
    else if c.toNat < 32 then none
    else (parseStrBody rest).map (fun p => (c :: p.1, p.2))

/-- Numeric value of a decimal digit character. -/
def digitVal (c : Char) : Nat := c.toNat - 48

/-- Value of a list of decimal digits. -/
def natOfDigits (ds : List Char) : Nat := ds.foldl (fun a c => a * 10 + digitVal c) 0

/-- Parse an unsigned JSON integer literal (no leading zeros; a
fraction or exponent is not modelled and fails the parse). -/
def parseNatLit (cs : List Char) : Option (Nat × List Char) :=
  let ds := cs.takeWhile Char.isDigit
  let rest := cs.dropWhile Char.isDigit
  if ds.isEmpty then none
  else if ds.length > 1 && ds.head? = some '0' then none
  else
    match rest with
    | '.' :: _ => none
    | 'e' :: _ => none
    | 'E' :: _ => none
    | _ => some (natOfDigits ds, rest)

/-- Parse a JSON integer literal with optional minus sign. -/
def parseIntLit (cs : List Char) : Option (Int × List Char) :=
  match cs with
  | '-' :: rest => (parseNatLit rest).map (fun p => (-(p.1 : Int), p.2))
  | _ => (parseNatLit cs).map (fun p => ((p.1 : Int), p.2))

/-- Insert a key into an object under construction, overwriting the
value of an existing key in place, as a Python dict does on duplicate
JSON keys. -/
def dinsert (k : List Char) (v : JsonVal) :
    List (List Char × JsonVal) → List (List Char × JsonVal)
  | [] => [(k, v)]
  | (k', v') :: rest => if k' = k then (k', v) :: rest else (k', v') :: dinsert k v rest

mutual

/-- Parse one JSON value; the fuel bounds nesting and is always
sufficient at `input length + 2`. Returns the value and the rest. -/
def parseVal : Nat → List Char → Option (JsonVal × List Char)
  | 0, _ => none
  | fuel + 1, cs =>
    match skipWs cs with
    | 't' :: 'r' :: 'u' :: 'e' :: r => some (.bool true, r)
    | 'f' :: 'a' :: 'l' :: 's' :: 'e' :: r => some (.bool false, r)
    | 'n' :: 'u' :: 'l' :: 'l' :: r => some (.null, r)
    | '"' :: r => (parseStrBody r).map (fun p => (.str p.1, p.2))
    | c :: r =>
      if c = lbraceC then
        match skipWs r with
        | c2 :: r2 => if c2 = rbraceC then some (.obj [], r2) else parseMembers fuel [] (c2 :: r2)
        | [] => none
      else if c = '[' then
        match skipWs r with
        | ']' :: r2 => some (.arr [], r2)
        | r2 => parseElems fuel [] r2
      else if c = '-' || c.isDigit then (parseIntLit (c :: r)).map (fun p => (.num p.1, p.2))
      else none
    | [] => none

/-- Parse the members of a JSON object after its opening brace. -/
def parseMembers : Nat → List (List Char × JsonVal) → List Char →
    Option (JsonVal × List Char)
  | 0, _, _ => none
  | fuel + 1, acc, cs =>
    match skipWs cs with
    | '"' :: r =>
      match parseStrBody r with
      | some (k, r1) =>
        match skipWs r1 with
        | ':' :: r2 =>
          match parseVal fuel r2 with
          | some (v, r3) =>
            match skipWs r3 with
            | ',' :: r4 => parseMembers fuel (dinsert k v acc) r4
            | c :: r4 => if c = rbraceC then some (.obj (dinsert k v acc), r4) else none
            | [] => none
          | none => none
        | _ => none
      | none => none
    | _ => none

/-- Parse the elements of a JSON array after its opening bracket. -/
def parseElems : Nat → List JsonVal → List Char → Option (JsonVal × List Char)
  | 0, _, _ => none
  | fuel + 1, acc, cs =>
    match parseVal fuel cs with
    | some (v, r) =>
      match skipWs r with
      | ',' :: r2 => parseElems fuel (acc ++ [v]) r2
      | ']' :: r2 => some (.arr (acc ++ [v]), r2)
      | _ => none
    | none => none

end

/-- Python `json.loads` on a character list: one value, then only
trailing whitespace. -/
def jsonLoads (cs : List Char) : Option JsonVal :=
  match parseVal (cs.length + 2) cs with
  | some (v, rest) => if skipWs rest = [] then some v else none
  | none => none

/-! ## The pydantic `EssayEvaluation` model and the resilient parser
(`SafePydanticOutputParser.parse`, model.py lines 49-123) -/

/-- The `EssayEvaluation` pydantic model: four integer criterion scores
with their textual justifications. Field bounds (`ge`/`le`) are
enforced by `parse_obj` below, as pydantic does. -/
structure EssayEvaluation where
  H1 : Int
  H1_explanation : String
  H2 : Int
  H2_explanation : String
  H3 : Int
  H3_explanation : String
  H4 : Int
  H4_explanation : String
deriving DecidableEq

/-- Key `"H1"`. -/
def fH1 : List Char := ['H', '1']

/-- Key `"H2"`. -/
def fH2 : List Char := ['H', '2']

/-- Key `"H3"`. -/
def fH3 : List Char := ['H', '3']

/-- Key `"H4"`. -/
def fH4 : List Char := ['H', '4']

/-- Key `"H1_explanation"`. -/
def fE1 : List Char := "H1_explanation".data

/-- Key `"H2_explanation"`. -/
def fE2 : List Char := "H2_explanation".data

/-- Key `"H3_explanation"`. -/
def fE3 : List Char := "H3_explanation".data

/-- Key `"H4_explanation"`. -/
def fE4 : List Char := "H4_explanation".data

/-- The score keys iterated by the first `None`-replacement loop. -/
def scoreKeys : List (List Char) := [fH1, fH2, fH3, fH4]

/-- The explanation keys iterated by the second `None`-replacement loop. -/
def explKeys : List (List Char) := [fE1, fE2, fE3, fE4]

/-- The placeholder `'Обоснование не предоставлено'` assigned to a
`None` explanation. -/
def placeholderExpl : String := "Обоснование не предоставлено"

/-- Dict lookup on a parsed JSON object (keys are unique). -/
def dlookup (k : List Char) : List (List Char × JsonVal) → Option JsonVal
  | [] => none
  | (k', v) :: rest => if k' = k then some v else dlookup k rest

/-- The `None`-replacement of the two loops in `parse` (model.py lines
98-103), applied to one member: a null score becomes `0`, a null
explanation becomes the placeholder; other values are untouched. -/
def fixVal (k : List Char) (v : JsonVal) : JsonVal :=
  match v with
  | .null =>
    if k ∈ scoreKeys then .num 0
    else if k ∈ explKeys then .str placeholderExpl.data
    else .null
  | w => w

/-- Apply `fixVal` to every member of the parsed object (the Python
loops mutate `data[field]` in place). -/
def noneFix (d : List (List Char × JsonVal)) : List (List Char × JsonVal) :=
  d.map (fun kv => (kv.1, fixVal kv.1 kv.2))

/-- The message a pydantic range violation contributes to
`str(ValidationError)` (modelled text). -/
def scoreRangeMsg : String := "значение балла вне допустимого диапазона"

/-- Validation of one score field value: pydantic v1 coerces int-like
values (bool, numeric string) to `int` and then enforces the
`ge=0`/`le=hi` bounds from the `Field` declaration. -/
def coerceScore (hi : Int) : JsonVal → Except String Int
  | .num n => if 0 ≤ n ∧ n ≤ hi then .ok n else .error scoreRangeMsg
  | .bool b =>
    let n : Int := if b then 1 else 0
    if 0 ≤ n ∧ n ≤ hi then .ok n else .error scoreRangeMsg
  | .str cs =>
    match (String.mk cs).toInt? with
    | some n => if 0 ≤ n ∧ n ≤ hi then .ok n else .error scoreRangeMsg
    | none => .error "значение не является целым числом"
  | _ => .error "значение не является целым числом"

/-- Validation of one explanation field value: pydantic v1 coerces
numbers and booleans to `str`; null, arrays and objects are rejected. -/
def coerceExpl : JsonVal → Except String String
  | .str cs => .ok (String.mk cs)
  | .num n => .ok (toString n)
  | .bool b => .ok (if b then "True" else "False")
  | _ => .error "значение не является строкой"

/-- Extract one score field: a missing key takes the declared default
`0`, a present value is validated. -/
def getScoreField (d : List (List Char × JsonVal)) (k : List Char) (hi : Int) :
    Except String Int :=
  match dlookup k d with
  | none => .ok 0
  | some v => coerceScore hi v

/-- Extract one explanation field: a missing key takes the declared
default `""`, a present value is validated. -/
def getExplField (d : List (List Char × JsonVal)) (k : List Char) :
    Except String String :=
  match dlookup k d with
  | none => .ok ""
  | some v => coerceExpl v

/-- `EssayEvaluation.parse_obj(data)`: validate the fields in
declaration order; any violation raises a `ValidationError`, modelled
as `Except.error`. -/
def EssayEvaluation.parse_obj (d : List (List Char × JsonVal)) :
    Except String EssayEvaluation := do
  let h1 ← getScoreField d fH1 1
  let e1 ← getExplField d fE1
  let h2 ← getScoreField d fH2 3
  let e2 ← getExplField d fE2
  let h3 ← getScoreField d fH3 2
  let e3 ← getExplField d fE3
  let h4 ← getScoreField d fH4 1
  let e4 ← getExplField d fE4
  return { H1 := h1, H1_explanation := e1, H2 := h2, H2_explanation := e2,
           H3 := h3, H3_explanation := e3, H4 := h4, H4_explanation := e4 }

/-- `re.search(r'\{.*\}', text, re.DOTALL)`: the greedy span from the
first `{` to the last `}` of the text, if a `}` occurs after the first
`{`. -/
def extractSpan (cs : List Char) : Option (List Char) :=
  if ((cs.dropWhile (fun c => c != lbraceC)).reverse.dropWhile
      (fun c => c != rbraceC)) = [] then none
  else some ((cs.dropWhile (fun c => c != lbraceC)).reverse.dropWhile
      (fun c => c != rbraceC)).reverse

/-- The default object built when no JSON is found (model.py lines
107-113). -/
def noJsonResult : EssayEvaluation :=
  { H1 := 0, H1_explanation := "Не удалось извлечь оценку",
    H2 := 0, H2_explanation := "Не удалось извлечь оценку",
    H3 := 0, H3_explanation := "Не удалось извлечь оценку",
    H4 := 0, H4_explanation := "Не удалось извлечь оценку" }

/-- The object built by the `except` clause (model.py lines 114-121):
all scores zero, every explanation `'Ошибка парсинга: <error>'`. -/
def parseErrorResult (e : String) : EssayEvaluation :=
  { H1 := 0, H1_explanation := "Ошибка парсинга: " ++ e,
    H2 := 0, H2_explanation := "Ошибка парсинга: " ++ e,
    H3 := 0, H3_explanation := "Ошибка парсинга: " ++ e,
    H4 := 0, H4_explanation := "Ошибка парсинга: " ++ e }

/-- The work done on an extracted brace span (the `if json_match:`
branch of `parse`, model.py lines 93-105): decode it as JSON, replace
nulls, validate with the pydantic model; every exception (JSON decode
error, validation error) is absorbed into the parse-error object. The
span always starts with a brace, so a successful decode is always an
object; the impossible non-object decode is routed to the same
`except` clause. -/
def parseSpan (span : List Char) : EssayEvaluation :=
  match jsonLoads span with
  | some (.obj d) =>
    match EssayEvaluation.parse_obj (noneFix d) with
    | .ok r => r
    | .error e => parseErrorResult e
  | some _ => parseErrorResult "значение JSON не является объектом"
  | none => parseErrorResult "некорректный JSON"

/-- `SafePydanticOutputParser.parse(text)` (model.py lines 86-123): find
the greedy brace span and process it; a missing span yields the default
object. The function is total: the Python contract that `parse` never
raises holds by construction. -/
def SafePydanticOutputParser.parse (text : String) : EssayEvaluation :=
  match extractSpan text.data with
  | none => noJsonResult
  | some span => parseSpan span

/-! ## The orchestrator (`EssayEvaluator.evaluate_single_essay`,
model.py lines 169-247) -/

/-- The all-zero result dict with one message on every explanation, the
shape returned by each early-return and by the `except` clause of
`evaluate_single_essay`. -/
def zeroResult (msg : String) : EssayEvaluation :=
  { H1 := 0, H1_explanation := msg, H2 := 0, H2_explanation := msg,
    H3 := 0, H3_explanation := msg, H4 := 0, H4_explanation := msg }

/-- The external model service behind `self.chains[essay_type].invoke`:
given the essay text and the task text (the rendered prompt's variable
parts) it returns the raw completion text, or fails with a
network/authentication error whose message is the `String` of the
`Except.error`. -/
abbrev LlmOracle := String → String → Except String String

/-- `evaluate_single_essay(essay_text, essay_type, task_text)`
(model.py lines 169-247). Steps in source order: unsupported-type
early return, word-count early return, model call, resilient parse;
the chain applies `SafePydanticOutputParser.parse` to the completion,
and the final dict copies the parsed fields unchanged (they are already
`int`/`str`). The only raise-capable step inside the `try` is the model
call; its failure is converted by the `except` clause into the all-zero
`'Ошибка обработки: <message>'` result, so the function is total by
construction. -/
def evaluate_single_essay (llm : LlmOracle) (essay_text : String)
    (essay_type : Int) (task_text : String) : EssayEvaluation :=
  if ¬ (essay_type = 2 ∨ essay_type = 3) then
    zeroResult s!"Тип сочинения {essay_type} не поддерживается"
  else
    let word_count := count_words_oge (.str essay_text)
    if word_count < 70 then
      zeroResult s!"Недостаточный объем сочинения: {word_count} слов при требуемых 70"
    else
      match llm essay_text task_text with
      | .error e => zeroResult ("Ошибка обработки: " ++ e)
      | .ok raw =>
        let evaluation := SafePydanticOutputParser.parse raw
        { H1 := evaluation.H1, H1_explanation := evaluation.H1_explanation,
          H2 := evaluation.H2, H2_explanation := evaluation.H2_explanation,
          H3 := evaluation.H3, H3_explanation := evaluation.H3_explanation,
          H4 := evaluation.H4, H4_explanation := evaluation.H4_explanation }

/-! ## Batch evaluation (`EssayEvaluator.evaluate_batch_essays`,
model.py lines 249-273, and `EssayHandler.handle_api_batch_evaluate`,
app.py lines 186-257) -/

/-- One element of a batch request's `essays` array (a JSON object):
each recognized key is `none` when missing. `essay_id` is read only by
`evaluate_batch_essays`. -/
structure EssayItem where
  essay_text : Option String
  task_text : Option String
  essay_type : Option Int
  essay_id : Option Int := none
deriving DecidableEq

/-- The enumerated loop of `evaluate_batch_essays` at index `i`: the
loop body reads `essay_data['essay_text']`, `essay_data['essay_type']`
and `essay_data['task_text']` with bare subscripts (in keyword-argument
order), so a missing key raises `KeyError` out of the whole loop,
modelled as `Except.error`; otherwise each result is paired with
`essay_data.get('essay_id', i+1)` and appended. -/
def evaluateBatchLoop (llm : LlmOracle) (i : Nat) :
    List EssayItem → Except String (List (EssayEvaluation × Int))
  | [] => .ok []
  | item :: rest =>
    match item.essay_text, item.essay_type, item.task_text with
    | some et, some ty, some tt => do
      let r := evaluate_single_essay llm et ty tt
      let tail ← evaluateBatchLoop llm (i + 1) rest
      return (r, item.essay_id.getD ((i : Int) + 1)) :: tail
    | none, _, _ => .error "KeyError: essay_text"
    | _, none, _ => .error "KeyError: essay_type"
    | _, _, none => .error "KeyError: task_text"

/-- `evaluate_batch_essays(essays_data)` (model.py lines 249-273). -/
def evaluate_batch_essays (llm : LlmOracle) (essays_data : List EssayItem) :
    Except String (List (EssayEvaluation × Int)) :=
  evaluateBatchLoop llm 0 essays_data

/-- One element of the `results` array built by
`handle_api_batch_evaluate`: a success entry carries the evaluation,
the echoed `essay_type` and the caller-computed `total_score`, an error
entry carries the error message; both carry the zero-based index `id`. -/
inductive BatchItemResult where
  | success (id : Nat) (essay_type : Int) (res : EssayEvaluation) (total_score : Int)
  | failure (id : Nat) (err : String)
deriving DecidableEq

/-- The `status` field of a batch result entry. -/
def statusOf : BatchItemResult → String
  | .success _ _ _ _ => "success"
  | .failure _ _ => "error"

/-- The `id` field of a batch result entry. -/
def idOf : BatchItemResult → Nat
  | .success i _ _ _ => i
  | .failure i _ => i

/-- Python `str.strip()` (no argument): remove whitespace from both
ends. -/
def pyStrip (s : String) : String :=
  String.mk (((s.data.dropWhile isWsRe).reverse.dropWhile isWsRe).reverse)

/-- The JSON envelope of a successful `/api/batch-evaluate` response. -/
structure BatchResponse where
  results : List BatchItemResult
  total_processed : Nat
  successful : Nat
  failed : Nat
deriving DecidableEq

/-- The body of the per-item loop of `handle_api_batch_evaluate`
(app.py lines 208-250) at index `i`: a missing required field or an
empty (after stripping) essay text appends an error entry and
continues; otherwise the essay is evaluated with
`essay_type = essay_data.get('essay_type', 2)` and a success entry with
`total_score = H1+H2+H3+H4` is appended. The surrounding
`try`/`except` has nothing left to catch: `evaluate_single_essay` is
total. -/
def processItem (ev : String → Int → String → EssayEvaluation) (i : Nat)
    (item : EssayItem) : BatchItemResult :=
  match item.essay_text, item.task_text with
  | none, none => .failure i "Missing fields: essay_text, task_text"
  | none, some _ => .failure i "Missing fields: essay_text"
  | some _, none => .failure i "Missing fields: task_text"
  | some et, some tt =>
    if (pyStrip et).data = [] then .failure i "Essay text cannot be empty"
    else
      let ty := item.essay_type.getD 2
      let r := ev et ty tt
      .success i ty r (r.H1 + r.H2 + r.H3 + r.H4)

/-- Python `enumerate` starting at `k`. -/
def withIdx (k : Nat) : List α → List (Nat × α)
  | [] => []
  | x :: xs => (k, x) :: withIdx (k + 1) xs

/-- `handle_api_batch_evaluate` (app.py lines 186-257) from the point
where the `essays` array has been extracted from a valid JSON body (the
earlier body-shape guards return their own 400 responses): more than
100 items is rejected with a 400 error envelope before any evaluation;
otherwise every item is processed in order and the response carries the
results with the three counters. The evaluator is abstracted as `ev`. -/
def handle_api_batch_evaluate (ev : String → Int → String → EssayEvaluation)
    (essays : List EssayItem) : Except String BatchResponse :=
  if essays.length > 100 then .error "Too many essays in batch (max 100)"
  else
    let results := (withIdx 0 essays).map (fun p => processItem ev p.1 p.2)
    .ok { results := results,
          total_processed := results.length,
          successful := (results.filter (fun r => statusOf r == "success")).length,
          failed := (results.filter (fun r => statusOf r == "error")).length }

/-! ## Hypothesis shapes and concrete inputs used by the theorems -/

/-- A list of punctuation characters (with the space); "a string of only
punctuation" in the word-count claim ranges over strings built from
these. -/
def punctChars : List Char :=
  ['.', ',', '!', '?', ';', ':', '"', '(', ')', '[', ']',
   '«', '»', '-', '–', '—', '…', ' ']

/-- What the parsed object may carry under a score key so that the
validated result holds `h` there: the in-range value `h` itself, or a
null, or nothing (the last two forcing `h = 0`). -/
def scoreHyp (d : List (List Char × JsonVal)) (k : List Char) (hi h : Int) : Prop :=
  (dlookup k d = some (.num h) ∧ 0 ≤ h ∧ h ≤ hi) ∨
  (dlookup k d = some .null ∧ h = 0) ∨
  (dlookup k d = none ∧ h = 0)

/-- What the parsed object may carry under an explanation key so that
the validated result holds `e` there: the string `e` itself, a null
(forcing the placeholder), or nothing (forcing the pydantic default,
the empty string). -/
def explHyp (d : List (List Char × JsonVal)) (k : List Char) (e : String) : Prop :=
  (∃ cs, dlookup k d = some (.str cs) ∧ e = String.mk cs) ∨
  (dlookup k d = some .null ∧ e = placeholderExpl) ∨
  (dlookup k d = none ∧ e = "")

/-- `n` space-separated one-letter words, a concrete essay of an exact
eligible length. -/
def wordsRep : Nat → List Char
  | 0 => []
  | n + 1 => 'a' :: ' ' :: wordsRep n

/-- A stub evaluator used as a concrete instantiation of the abstract
per-essay evaluator in the batch-handler witnesses. -/
def stubEval : String → Int → String → EssayEvaluation :=
  fun _ _ _ => zeroResult "stub"

/-- A concrete one-item batch with both required fields present. -/
def goodBatch : List EssayItem :=
  [{ essay_text := some "Сочинение", task_text := some "Задание",
     essay_type := none }]

/-- The response `handle_api_batch_evaluate` computes on `goodBatch`
with `stubEval`. -/
def goodBatchResp : BatchResponse :=
  { results := [.success 0 2 (zeroResult "stub") 0],
    total_processed := 1, successful := 1, failed := 0 }

/-! ## Theorems -/

/-- C3: for every `essay_type` outside `{2, 3}`, `evaluate_single_essay`
returns the all-zero result with the same `'Тип сочинения <n> не
поддерживается'` text on all four explanation fields, for every model
oracle and every essay and task text (the type check is the first step,
so no other condition can pre-empt it); the function raises nothing, being
total by construction. -/
theorem evaluate_single_essay_unsupported_type (llm : LlmOracle)
    (essay_text task_text : String) (ty : Int) (hty : ¬ (ty = 2 ∨ ty = 3)) :
    evaluate_single_essay llm essay_text ty task_text =
      zeroResult s!"Тип сочинения {ty} не поддерживается" := by
  simp [evaluate_single_essay, hty]

/-- Witness for C3 at `essay_type = 5`. -/
theorem evaluate_single_essay_unsupported_type_witness :
    evaluate_single_essay (fun _ _ => .error "stub") "текст" 5 "задание" =
      zeroResult "Тип сочинения 5 не поддерживается" :=
  evaluate_single_essay_unsupported_type _ "текст" "задание" 5 (by decide)

/-- C2: for every essay whose eligible-word count is below 70 and every
supported essay type, `evaluate_single_essay` returns the all-zero
result with the `'Недостаточный объем сочинения: <n> слов при требуемых
70'` explanation on all four fields; the conclusion holds for every
model oracle `llm`, so the model service is never invoked on this
path. -/
theorem evaluate_single_essay_short_essay_gate (llm : LlmOracle)
    (essay_text task_text : String) (ty : Int) (n : Nat)
    (hty : ty = 2 ∨ ty = 3)
    (hn : count_words_oge (.str essay_text) = n) (hlt : n < 70) :
    evaluate_single_essay llm essay_text ty task_text =
      zeroResult s!"Недостаточный объем сочинения: {n} слов при требуемых 70" := by
  simp [evaluate_single_essay, not_not_intro hty, hn, hlt]

/-- Witness for C2 at a two-word essay of type 3. -/
theorem evaluate_single_essay_short_essay_gate_witness :
    evaluate_single_essay (fun _ _ => .error "stub") "привет мир" 3 "задание" =
      zeroResult "Недостаточный объем сочинения: 2 слов при требуемых 70" :=
  evaluate_single_essay_short_essay_gate _ "привет мир" "задание" 3 2
    (Or.inr rfl) rfl (by decide)

/-- C1: `evaluate_single_essay` never raises and always returns all
eight `H*`/`H*_explanation` fields: it is a total function into
`EssayEvaluation`, whose every early return and `except` conversion is
a complete record. Its one raise-capable step inside the `try` is the
model call, and when that call fails with message `e` the result is the
all-zero record with `'Ошибка обработки: <e>'` on all four explanation
fields. -/
theorem evaluate_single_essay_processing_error (llm : LlmOracle)
    (essay_text task_text e : String) (ty : Int)
    (hty : ty = 2 ∨ ty = 3)
    (hwc : ¬ count_words_oge (.str essay_text) < 70)
    (herr : llm essay_text task_text = .error e) :
    evaluate_single_essay llm essay_text ty task_text =
      zeroResult ("Ошибка обработки: " ++ e) := by
  simp [evaluate_single_essay, not_not_intro hty, hwc, herr]

/-- Witness for C1 at a 70-word essay and an oracle that fails with a
network error. -/
theorem evaluate_single_essay_processing_error_witness :
    evaluate_single_essay (fun _ _ => .error "network failure")
      (String.mk (wordsRep 70)) 2 "задание" =
      zeroResult ("Ошибка обработки: " ++ "network failure") :=
  evaluate_single_essay_processing_error _ (String.mk (wordsRep 70)) "задание"
    "network failure" 2 (Or.inl rfl) (by decide) rfl

/-- An uppercase-Cyrillic character (the class of the initials
patterns) is a letter for `isalpha`. -/
theorem pyIsAlpha_of_isUpperRu {c : Char} (h : isUpperRu c = true) :
    pyIsAlpha c = true := by
  simp only [isUpperRu, pyIsAlpha, Bool.or_eq_true, Bool.and_eq_true,
    decide_eq_true_eq] at *
  omega

/-- On a string without letters, `matchInitial` never matches. -/
theorem matchInitial_eq_none {cs : List Char}
    (h : ∀ c ∈ cs, pyIsAlpha c = false) : matchInitial cs = none := by
  match cs with
  | [] => rfl
  | [a] => rfl
  | a :: b :: rest =>
    have ha : isUpperRu a = false := by
      cases hu : isUpperRu a
      · rfl
      · have := h a (by simp)
        rw [pyIsAlpha_of_isUpperRu hu] at this
        cases this
    simp [matchInitial, ha]

/-- On a string without letters, the two-initials pattern never
matches. -/
theorem matchP1_eq_none {cs : List Char}
    (h : ∀ c ∈ cs, pyIsAlpha c = false) : matchP1 cs = none := by
  unfold matchP1
  rw [matchInitial_eq_none h]

/-- On a string without letters, the one-initial pattern never
matches. -/
theorem matchP2_eq_none {cs : List Char}
    (h : ∀ c ∈ cs, pyIsAlpha c = false) : matchP2 cs = none := by
  unfold matchP2
  rw [matchInitial_eq_none h]

/-- On a string without letters, the first substitution is the
identity. -/
theorem sub1F_of_no_alpha : ∀ (fuel : Nat) (cs : List Char),
    (∀ c ∈ cs, pyIsAlpha c = false) → sub1F fuel cs = cs := by
  intro fuel
  induction fuel with
  | zero => intro cs _; cases cs <;> rfl
  | succ fuel ih =>
    intro cs h
    cases cs with
    | nil => rfl
    | cons c rest =>
      rw [sub1F, matchP1_eq_none h]
      rw [ih rest (fun c hc => h c (by simp [hc]))]

/-- On a string without letters, the second substitution is the
identity. -/
theorem sub2F_of_no_alpha : ∀ (fuel : Nat) (cs : List Char),
    (∀ c ∈ cs, pyIsAlpha c = false) → sub2F fuel cs = cs := by
  intro fuel
  induction fuel with
  | zero => intro cs _; cases cs <;> rfl
  | succ fuel ih =>
    intro cs h
    cases cs with
    | nil => rfl
    | cons c rest =>
      rw [sub2F, matchP2_eq_none h]
      rw [ih rest (fun c hc => h c (by simp [hc]))]

/-- Every character of every token produced by the whitespace splitter
comes from the input or the accumulator. -/
theorem splitWsAux_chars : ∀ (cs acc t : List Char),
    t ∈ splitWsAux cs acc → ∀ c ∈ t, c ∈ cs ∨ c ∈ acc := by
  intro cs
  induction cs with
  | nil =>
    intro acc t ht c hc
    unfold splitWsAux at ht
    by_cases hacc : acc.isEmpty
    · simp [hacc] at ht
    · rw [if_neg hacc] at ht
      rcases List.mem_singleton.1 ht with rfl
      exact Or.inr (List.mem_reverse.1 hc)
  | cons c0 rest ih =>
    intro acc t ht c hc
    unfold splitWsAux at ht
    by_cases hws : isWsRe c0
    · rw [if_pos hws] at ht
      by_cases hacc : acc.isEmpty
      · rw [if_pos hacc] at ht
        rcases ih [] t ht c hc with h | h
        · exact Or.inl (List.mem_cons_of_mem _ h)
        · cases h
      · rw [if_neg hacc] at ht
        rcases List.mem_cons.1 ht with rfl | ht'
        · exact Or.inr (List.mem_reverse.1 hc)
        · rcases ih [] t ht' c hc with h | h
          · exact Or.inl (List.mem_cons_of_mem _ h)
          · cases h
    · rw [if_neg hws] at ht
      rcases ih (c0 :: acc) t ht c hc with h | h
      · exact Or.inl (List.mem_cons_of_mem _ h)
      · rcases List.mem_cons.1 h with rfl | h'
        · exact Or.inl (List.mem_cons_self _ _)
        · exact Or.inr h'

/-- Dropping a prefix keeps membership. -/
theorem mem_of_mem_dropWhile {p : Char → Bool} :
    ∀ {l : List Char} {c : Char}, c ∈ l.dropWhile p → c ∈ l := by
  intro l
  induction l with
  | nil => intro c hc; exact hc
  | cons a as ih =>
    intro c hc
    rw [List.dropWhile_cons] at hc
    by_cases hp : p a
    · rw [if_pos hp] at hc
      exact List.mem_cons_of_mem _ (ih hc)
    · rw [if_neg hp] at hc
      exact hc

/-- Stripping edge punctuation keeps membership. -/
theorem mem_of_mem_stripEdges {w : List Char} {c : Char}
    (h : c ∈ stripEdges w) : c ∈ w := by
  unfold stripEdges at h
  exact mem_of_mem_dropWhile
    (mem_of_mem_dropWhile (List.mem_reverse.1 h) |> List.mem_reverse.1)

/-- A string made of punctuation only has no eligible words. -/
theorem count_words_oge_punct_only (s : String)
    (h : ∀ c ∈ s.data, c ∈ punctChars) : count_words_oge (.str s) = 0 := by
  have hna : ∀ c ∈ s.data, pyIsAlpha c = false := by
    have hall : ∀ c ∈ punctChars, pyIsAlpha c = false := by decide
    exact fun c hc => hall c (h c hc)
  show (if s.data.isEmpty then 0 else (valid_words s.data).length) = 0
  by_cases he : s.data.isEmpty
  · rw [if_pos he]
  · rw [if_neg he]
    have hv : valid_words s.data = [] := by
      unfold valid_words
      rw [sub1, sub1F_of_no_alpha _ _ hna, sub2, sub2F_of_no_alpha _ _ hna]
      rw [List.filter_eq_nil_iff]
      intro w hw
      rcases List.mem_map.1 hw with ⟨t, ht, rfl⟩
      have hchars : ∀ c ∈ stripEdges t, pyIsAlpha c = false := by
        intro c hc
        rcases splitWsAux_chars s.data [] t ht c (mem_of_mem_stripEdges hc) with h1 | h1
        · exact hna c h1
        · cases h1
      simp only [Bool.and_eq_true, Bool.not_eq_true', List.any_eq_true, not_and,
        not_exists]
      intro _ c hc
      rw [hchars c hc]
      simp
    rw [hv]
    rfl

/-- C8: the word-count gate returns 0 for every non-string input and
for the empty string, returns 0 for every string consisting only of
punctuation, and on `"А. С. Пушкин написал десять произведений."` the
initials plus surname survive as one single token (the word list has
exactly four entries, the first being the merged name token), so the
sentence counts 4 words. -/
theorem count_words_oge_gate_properties :
    (∀ v : PyVal, (∀ s, v ≠ PyVal.str s) → count_words_oge v = 0) ∧
    count_words_oge (PyVal.str "") = 0 ∧
    (∀ s : String, (∀ c ∈ s.data, c ∈ punctChars) →
      count_words_oge (PyVal.str s) = 0) ∧
    (valid_words "А. С. Пушкин написал десять произведений.".data).map String.mk =
      ["ФИОушкин", "написал", "десять", "произведений"] ∧
    count_words_oge (PyVal.str "А. С. Пушкин написал десять произведений.") = 4 := by
  refine ⟨?_, rfl, count_words_oge_punct_only, by decide, by decide⟩
  intro v hv
  cases v with
  | str s => exact absurd rfl (hv s)
  | noneVal => rfl
  | intVal n => rfl
  | listVal xs => rfl

/-- Witness for C8 at the non-string input `3` and a punctuation-only
string. -/
theorem count_words_oge_gate_properties_witness :
    count_words_oge (PyVal.intVal 3) = 0 ∧
    count_words_oge (PyVal.str "!!! — ...???") = 0 :=
  ⟨count_words_oge_gate_properties.1 (PyVal.intVal 3) (fun _ h => by cases h),
   count_words_oge_gate_properties.2.2.1 "!!! — ...???" (by decide)⟩

/-- A nonempty `dropWhile` result starts with an element falsifying the
predicate. -/
theorem dropWhile_eq_cons_head {p : Char → Bool} :
    ∀ {l a : List Char} {c : Char}, l.dropWhile p = c :: a → p c = false := by
  intro l
  induction l with
  | nil => intro a c h; cases h
  | cons x xs ih =>
    intro a c h
    rw [List.dropWhile_cons] at h
    by_cases hp : p x
    · rw [if_pos hp] at h
      exact ih h
    · rw [if_neg hp] at h
      cases h
      simpa using hp

/-- If the text admits no decomposition with a `}` after a `{`, the
regex search `re.search(r'\{.*\}', text, re.DOTALL)` fails. -/
theorem extractSpan_eq_none {cs : List Char}
    (h : ∀ l₁ l₂ l₃, cs ≠ l₁ ++ lbraceC :: (l₂ ++ rbraceC :: l₃)) :
    extractSpan cs = none := by
  unfold extractSpan
  by_cases hr : (cs.dropWhile (fun c => c != lbraceC)).reverse.dropWhile
      (fun c => c != rbraceC) = []
  · rw [if_pos hr]
  · exfalso
    set t := cs.dropWhile (fun c => c != lbraceC) with hts
    rcases hrc : t.reverse.dropWhile (fun c => c != rbraceC) with _ | ⟨b, bs⟩
    · exact hr hrc
    · have hb : b = rbraceC := by
        have := dropWhile_eq_cons_head hrc
        simpa using this
      subst hb
      have hsplit : t.reverse.takeWhile (fun c => c != rbraceC) ++
          (rbraceC :: bs) = t.reverse := by
        rw [← hrc]
        exact List.takeWhile_append_dropWhile ..
      set X := t.reverse.takeWhile (fun c => c != rbraceC) with hX
      have ht : t = bs.reverse ++ rbraceC :: X.reverse := by
        have := congrArg List.reverse hsplit
        simpa [List.reverse_append] using this.symm
      have htne : t ≠ [] := by
        intro he
        rw [he] at ht
        cases bs.reverse <;> simp at ht
      rcases hth : t with _ | ⟨a, t₂⟩
      · exact htne hth
      · have ha : a = lbraceC := by
          have := dropWhile_eq_cons_head (hts ▸ hth : cs.dropWhile
            (fun c => c != lbraceC) = a :: t₂)
          simpa using this
        subst ha
        rw [hth] at ht
        rcases hbs : bs.reverse with _ | ⟨y, ys⟩
        · rw [hbs] at ht
          simp at ht
          have : lbraceC = rbraceC := ht.1
          exact absurd this (by decide)
        · rw [hbs] at ht
          have hy : y = lbraceC ∧ t₂ = ys ++ rbraceC :: X.reverse := by
            constructor
            · exact (List.cons.injEq .. ▸ ht).1.symm
            · exact (List.cons.injEq .. ▸ ht).2
          have hcs : cs = cs.takeWhile (fun c => c != lbraceC) ++
              lbraceC :: t₂ := by
            conv_lhs => rw [← List.takeWhile_append_dropWhile
              (p := fun c => c != lbraceC) (l := cs)]
            rw [← hts, hth]
          rw [hy.2] at hcs
          exact h _ ys X.reverse hcs

/-- C4: the resilient parser is a total function into
`EssayEvaluation` (it raises nothing, for every raw string), and on
every raw string containing no brace-delimited span it returns the
all-zero result with the non-empty diagnostic `'Не удалось извлечь
оценку'` on every one of the four explanation fields. -/
theorem safe_parse_no_json_span (text : String)
    (h : ∀ l₁ l₂ l₃, text.data ≠ l₁ ++ lbraceC :: (l₂ ++ rbraceC :: l₃)) :
    SafePydanticOutputParser.parse text = noJsonResult := by
  unfold SafePydanticOutputParser.parse
  rw [extractSpan_eq_none h]

/-- A text without `{` admits no brace-delimited span at all. -/
theorem no_span_of_no_lbrace {cs : List Char} (h : lbraceC ∉ cs) :
    ∀ l₁ l₂ l₃, cs ≠ l₁ ++ lbraceC :: (l₂ ++ rbraceC :: l₃) := by
  intro l₁ l₂ l₃ he
  apply h
  rw [he]
  simp

/-- Witness for C4 at a plain-prose model completion. -/
theorem safe_parse_no_json_span_witness :
    SafePydanticOutputParser.parse "Извините, я не могу оценить это сочинение." =
      noJsonResult :=
  safe_parse_no_json_span "Извините, я не могу оценить это сочинение."
    (no_span_of_no_lbrace (by decide))

/-- Dropping while a predicate holds skips a prefix on which it holds
everywhere. -/
theorem dropWhile_append_of_all {l₁ l₂ : List Char} {p : Char → Bool}
    (h : ∀ a ∈ l₁, p a = true) : (l₁ ++ l₂).dropWhile p = l₂.dropWhile p := by
  induction l₁ with
  | nil => rfl
  | cons a l ih =>
    rw [List.cons_append, List.dropWhile_cons, if_pos (by simp [h a (by simp)])]
    exact ih (fun a ha => h a (by simp [ha]))

/-- The greedy `re.search(r'\{.*\}', ..., re.DOTALL)` on prose around a
brace-delimited span extracts exactly that span: the first `{` opens it
and the last `}` closes it when the prefix has no `{` and the suffix no
`}`. -/
theorem extractSpan_prose (p mid q : List Char)
    (hp : lbraceC ∉ p) (hq : rbraceC ∉ q) :
    extractSpan (p ++ (lbraceC :: (mid ++ [rbraceC])) ++ q) =
      some (lbraceC :: (mid ++ [rbraceC])) := by
  unfold extractSpan
  have h1 : (p ++ (lbraceC :: (mid ++ [rbraceC])) ++ q).dropWhile
      (fun c => c != lbraceC) = lbraceC :: (mid ++ rbraceC :: q) := by
    rw [List.append_assoc, dropWhile_append_of_all (p := fun c => c != lbraceC)
      (fun a ha => by
        have hne : a ≠ lbraceC := fun he => hp (he ▸ ha)
        simpa using hne)]
    rw [List.cons_append, List.dropWhile_cons, if_neg (by simp)]
    simp
  rw [h1]
  have h2 : (lbraceC :: (mid ++ rbraceC :: q)).reverse =
      q.reverse ++ rbraceC :: (mid.reverse ++ [lbraceC]) := by
    simp
  rw [h2]
  rw [dropWhile_append_of_all (p := fun c => c != rbraceC)
    (fun a ha => by
      have hne : a ≠ rbraceC := fun he => hq (he ▸ List.mem_reverse.1 ha)
      simpa using hne)]
  rw [List.dropWhile_cons, if_neg (by simp)]
  simp

/-- Looking a key up after the `None`-replacement pass sees the fixed
value. -/
theorem dlookup_noneFix (k : List Char) (d : List (List Char × JsonVal)) :
    dlookup k (noneFix d) = (dlookup k d).map (fixVal k) := by
  induction d with
  | nil => rfl
  | cons kv rest ih =>
    by_cases h : kv.1 = k
    · simp [noneFix, dlookup, h]
    · simp only [noneFix, List.map_cons, dlookup, if_neg h]
      exact ih

/-- A score field whose parsed value satisfies `scoreHyp` validates to
that value after the `None`-replacement. -/
theorem getScoreField_of_scoreHyp {d : List (List Char × JsonVal)}
    {k : List Char} {hi h : Int} (hk : k ∈ scoreKeys) (hhi : 0 ≤ hi)
    (hs : scoreHyp d k hi h) : getScoreField (noneFix d) k hi = .ok h := by
  unfold getScoreField
  rw [dlookup_noneFix]
  rcases hs with ⟨hl, h0, h1⟩ | ⟨hl, rfl⟩ | ⟨hl, rfl⟩ <;> rw [hl]
  · simp [fixVal, coerceScore, h0, h1]
  · simp [fixVal, coerceScore, hk, hhi, le_refl]
  · rfl

/-- An explanation field whose parsed value satisfies `explHyp`
validates to that string after the `None`-replacement. -/
theorem getExplField_of_explHyp {d : List (List Char × JsonVal)}
    {k : List Char} {e : String} (hk1 : k ∉ scoreKeys) (hk2 : k ∈ explKeys)
    (hx : explHyp d k e) : getExplField (noneFix d) k = .ok e := by
  unfold getExplField
  rw [dlookup_noneFix]
  rcases hx with ⟨cs, hl, rfl⟩ | ⟨hl, rfl⟩ | ⟨hl, rfl⟩ <;> rw [hl]
  · simp [fixVal, coerceExpl]
  · simp [fixVal, coerceExpl, hk1, hk2]
  · rfl

/-- Bind on a successful `Except` computation applies the
continuation. -/
theorem ebind_ok {α β : Type} (a : α) (f : α → Except String β) :
    (Except.ok a >>= f) = f a := rfl

/-- Bind on a failed `Except` computation propagates the error. -/
theorem ebind_error {α β : Type} (e : String) (f : α → Except String β) :
    ((Except.error e : Except String α) >>= f) = Except.error e := rfl

/-- C5 (amended): for every raw string that is prose around one
brace-delimited span decoding to a JSON object `d` (prefix without `{`,
suffix without `}`), the parser extracts exactly that greedy span and
returns the embedded scores unchanged; a null or missing score becomes
`0`; a null explanation becomes the fixed placeholder `'Обоснование не
предоставлено'`, while a MISSING explanation becomes the empty string,
the pydantic field default. -/
theorem safe_parse_extracts_embedded_json (p mid q : List Char)
    (d : List (List Char × JsonVal)) (h1 h2 h3 h4 : Int) (e1 e2 e3 e4 : String)
    (hp : lbraceC ∉ p) (hq : rbraceC ∉ q)
    (hj : jsonLoads (lbraceC :: (mid ++ [rbraceC])) = some (.obj d))
    (s1 : scoreHyp d fH1 1 h1) (x1 : explHyp d fE1 e1)
    (s2 : scoreHyp d fH2 3 h2) (x2 : explHyp d fE2 e2)
    (s3 : scoreHyp d fH3 2 h3) (x3 : explHyp d fE3 e3)
    (s4 : scoreHyp d fH4 1 h4) (x4 : explHyp d fE4 e4) :
    SafePydanticOutputParser.parse
        (String.mk (p ++ (lbraceC :: (mid ++ [rbraceC])) ++ q)) =
      { H1 := h1, H1_explanation := e1, H2 := h2, H2_explanation := e2,
        H3 := h3, H3_explanation := e3, H4 := h4, H4_explanation := e4 } := by
  have g1 := getScoreField_of_scoreHyp (by decide) (by decide) s1
  have g2 := getScoreField_of_scoreHyp (by decide) (by decide) s2
  have g3 := getScoreField_of_scoreHyp (by decide) (by decide) s3
  have g4 := getScoreField_of_scoreHyp (by decide) (by decide) s4
  have v1 := getExplField_of_explHyp (by decide) (by decide) x1
  have v2 := getExplField_of_explHyp (by decide) (by decide) x2
  have v3 := getExplField_of_explHyp (by decide) (by decide) x3
  have v4 := getExplField_of_explHyp (by decide) (by decide) x4
  have hv : EssayEvaluation.parse_obj (noneFix d) =
      .ok { H1 := h1, H1_explanation := e1, H2 := h2, H2_explanation := e2,
            H3 := h3, H3_explanation := e3, H4 := h4, H4_explanation := e4 } := by
    unfold EssayEvaluation.parse_obj
    rw [g1, ebind_ok, v1, ebind_ok, g2, ebind_ok, v2, ebind_ok,
        g3, ebind_ok, v3, ebind_ok, g4, ebind_ok, v4, ebind_ok]
    rfl
  unfold SafePydanticOutputParser.parse
  have hd : (String.mk (p ++ (lbraceC :: (mid ++ [rbraceC])) ++ q)).data =
      p ++ (lbraceC :: (mid ++ [rbraceC])) ++ q := rfl
  rw [hd, extractSpan_prose p mid q hp hq]
  show parseSpan (lbraceC :: (mid ++ [rbraceC])) = _
  unfold parseSpan
  rw [hj]
  show (match EssayEvaluation.parse_obj (noneFix d) with
    | .ok r => r
    | .error e => parseErrorResult e) = _
  rw [hv]

/-- C5 counterexample: on a raw string whose embedded JSON object omits
the explanation fields, the extracted score comes through but a missing
explanation becomes the empty string, NOT the fixed placeholder the
claim asserts for missing values. -/
theorem safe_parse_missing_explanation_counterexample :
    (SafePydanticOutputParser.parse "сырой ответ \x7b\"H1\": 1\x7d конец").H1 = 1 ∧
    (SafePydanticOutputParser.parse "сырой ответ \x7b\"H1\": 1\x7d конец").H1_explanation
      ≠ "Обоснование не предоставлено" ∧
    (SafePydanticOutputParser.parse "сырой ответ \x7b\"H1\": 1\x7d конец").H1_explanation
      = "" := by
  refine ⟨rfl, ?_, rfl⟩
  decide

/-- Witness for the amended C5 on a completion with prose around the
object, one present score, one null score, one null explanation, and
the rest of the fields missing. -/
theorem safe_parse_extracts_embedded_json_witness :
    SafePydanticOutputParser.parse
        (String.mk ("Вот оценка: ".data ++
          (lbraceC :: ("\"H1\": 1, \"H1_explanation\": null, \"H2\": null".data ++
            [rbraceC])) ++ " конец".data)) =
      { H1 := 1, H1_explanation := "Обоснование не предоставлено",
        H2 := 0, H2_explanation := "", H3 := 0, H3_explanation := "",
        H4 := 0, H4_explanation := "" } :=
  safe_parse_extracts_embedded_json "Вот оценка: ".data _ " конец".data
    [(fH1, .num 1), (fE1, .null), (fH2, .null)] 1 0 0 0
    "Обоснование не предоставлено" "" "" ""
    (by decide) (by decide) rfl
    (Or.inl ⟨rfl, by decide, by decide⟩) (Or.inr (Or.inl ⟨rfl, rfl⟩))
    (Or.inr (Or.inl ⟨rfl, rfl⟩)) (Or.inr (Or.inr ⟨rfl, rfl⟩))
    (Or.inr (Or.inr ⟨rfl, rfl⟩)) (Or.inr (Or.inr ⟨rfl, rfl⟩))
    (Or.inr (Or.inr ⟨rfl, rfl⟩)) (Or.inr (Or.inr ⟨rfl, rfl⟩))

/-- C6 (amended): scores are validated as integers, but an out-of-band
score is NOT passed through (nor clamped): the pydantic `ge`/`le`
bounds on `H1` reject it, the resulting `ValidationError` is absorbed
by the `except` clause, and the parser returns the all-zero parse-error
result. -/
theorem safe_parse_out_of_range_rejected (text : String) (sp : List Char)
    (d : List (List Char × JsonVal)) (n : Int)
    (hsp : extractSpan text.data = some sp)
    (hj : jsonLoads sp = some (.obj d))
    (hn : dlookup fH1 d = some (.num n))
    (hout : n < 0 ∨ 1 < n) :
    SafePydanticOutputParser.parse text = parseErrorResult scoreRangeMsg ∧
    (SafePydanticOutputParser.parse text).H1 = 0 ∧
    (SafePydanticOutputParser.parse text).H1 ≠ n := by
  have hc : ¬ (0 ≤ n ∧ n ≤ 1) := by rcases hout with h | h <;> omega
  have hg : getScoreField (noneFix d) fH1 1 = .error scoreRangeMsg := by
    unfold getScoreField
    rw [dlookup_noneFix, hn]
    show (if 0 ≤ n ∧ n ≤ 1 then Except.ok n else Except.error scoreRangeMsg) = _
    rw [if_neg hc]
  have hv : EssayEvaluation.parse_obj (noneFix d) = .error scoreRangeMsg := by
    unfold EssayEvaluation.parse_obj
    rw [hg, ebind_error]
  have hmain : SafePydanticOutputParser.parse text =
      parseErrorResult scoreRangeMsg := by
    unfold SafePydanticOutputParser.parse
    rw [hsp]
    show parseSpan sp = _
    unfold parseSpan
    rw [hj]
    show (match EssayEvaluation.parse_obj (noneFix d) with
      | .ok r => r
      | .error e => parseErrorResult e) = _
    rw [hv]
  refine ⟨hmain, by rw [hmain]; rfl, ?_⟩
  rw [hmain]
  show (0 : Int) ≠ n
  rcases hout with h | h <;> omega

/-- C6 counterexample: a completion whose JSON carries `H1 = 5` (range
0-1) does not come back with `H1 = 5`: validation fails and the parser
returns the all-zero parse-error result, so out-of-band values are not
passed through uncorrected. -/
theorem safe_parse_out_of_range_counterexample :
    (SafePydanticOutputParser.parse
      "\x7b\"H1\": 5, \"H1_explanation\": \"a\", \"H2\": 0, \"H2_explanation\": \"b\", \"H3\": 0, \"H3_explanation\": \"c\", \"H4\": 0, \"H4_explanation\": \"d\"\x7d").H1 ≠ 5 ∧
    (SafePydanticOutputParser.parse
      "\x7b\"H1\": 5, \"H1_explanation\": \"a\", \"H2\": 0, \"H2_explanation\": \"b\", \"H3\": 0, \"H3_explanation\": \"c\", \"H4\": 0, \"H4_explanation\": \"d\"\x7d").H1 = 0 := by
  refine ⟨?_, rfl⟩
  decide

/-- Witness for the amended C6 at a completion carrying `H1 = 7`. -/
theorem safe_parse_out_of_range_rejected_witness :
    SafePydanticOutputParser.parse "\x7b\"H1\": 7\x7d" =
      parseErrorResult scoreRangeMsg ∧
    (SafePydanticOutputParser.parse "\x7b\"H1\": 7\x7d").H1 = 0 ∧
    (SafePydanticOutputParser.parse "\x7b\"H1\": 7\x7d").H1 ≠ 7 :=
  safe_parse_out_of_range_rejected "\x7b\"H1\": 7\x7d" _ [(fH1, .num 7)] 7
    rfl rfl rfl (Or.inr (by decide))

/-- Enumeration preserves length. -/
theorem withIdx_length (k : Nat) (xs : List α) :
    (withIdx k xs).length = xs.length := by
  induction xs generalizing k with
  | nil => rfl
  | cons x xs ih => simp [withIdx, ih]

/-- The `j`-th enumerated element is the `j`-th element paired with its
index. -/
theorem withIdx_get? (k : Nat) (xs : List α) (j : Nat) :
    (withIdx k xs)[j]? = xs[j]?.map (fun x => (k + j, x)) := by
  induction xs generalizing k j with
  | nil => simp [withIdx]
  | cons x xs ih =>
    cases j with
    | zero => simp [withIdx]
    | succ j =>
      simp only [withIdx, List.getElem?_cons_succ, ih (k + 1) j]
      have : k + 1 + j = k + (j + 1) := by omega
      rw [this]

/-- Every batch entry carries the index it was built at. -/
theorem processItem_id (ev : String → Int → String → EssayEvaluation)
    (i : Nat) (it : EssayItem) : idOf (processItem ev i it) = i := by
  obtain ⟨et, tt, ty, eid⟩ := it
  cases et <;> cases tt <;> simp only [processItem]
  · rfl
  · rfl
  · rfl
  · split <;> rfl

/-- Every batch entry has one of the two statuses. -/
theorem statusOf_cases (r : BatchItemResult) :
    statusOf r = "success" ∨ statusOf r = "error" := by
  cases r
  · exact Or.inl rfl
  · exact Or.inr rfl

/-- The two status filters partition the results list. -/
theorem filter_status_sum (rs : List BatchItemResult) :
    (rs.filter (fun r => statusOf r == "success")).length +
    (rs.filter (fun r => statusOf r == "error")).length = rs.length := by
  induction rs with
  | nil => rfl
  | cons r rest ih =>
    rcases r with ⟨i, ty, res, tot⟩ | ⟨i, e⟩
    · rw [List.filter_cons, List.filter_cons,
        show (statusOf (.success i ty res tot) == "success") = true from rfl,
        show (statusOf (.success i ty res tot) == "error") = false from rfl]
      simp only [if_true, if_false, Bool.false_eq_true, List.length_cons]
      omega
    · rw [List.filter_cons, List.filter_cons,
        show (statusOf (.failure i e) == "success") = false from rfl,
        show (statusOf (.failure i e) == "error") = true from rfl]
      simp only [if_true, if_false, Bool.false_eq_true, List.length_cons]
      omega

/-- C10: every accepted batch request (at most 100 items) yields a
response preserving input order and the counting invariant: the entry
at position `j` carries `id = j`, `total_processed` equals the length
of `results`, which equals the number of submitted essays,
`successful + failed = total_processed`, and every entry's status is
`"success"` or `"error"`. -/
theorem handle_api_batch_evaluate_invariants
    (ev : String → Int → String → EssayEvaluation) (essays : List EssayItem)
    (resp : BatchResponse)
    (hok : handle_api_batch_evaluate ev essays = .ok resp) :
    resp.total_processed = resp.results.length ∧
    resp.results.length = essays.length ∧
    (∀ j r, resp.results[j]? = some r → idOf r = j) ∧
    resp.successful + resp.failed = resp.total_processed ∧
    (∀ r ∈ resp.results, statusOf r = "success" ∨ statusOf r = "error") := by
  unfold handle_api_batch_evaluate at hok
  by_cases hlen : essays.length > 100
  · rw [if_pos hlen] at hok
    cases hok
  · rw [if_neg hlen] at hok
    injection hok with hok
    subst hok
    refine ⟨rfl, ?_, ?_, filter_status_sum _, fun r _ => statusOf_cases r⟩
    · simp [withIdx_length]
    · intro j r hjr
      rw [List.getElem?_map, withIdx_get?] at hjr
      rcases hje : essays[j]? with _ | it
      · rw [hje] at hjr
        cases hjr
      · rw [hje] at hjr
        simp only [Option.map_some'] at hjr
        injection hjr with hjr
        rw [← hjr, processItem_id]
        omega

/-- Witness for C10 on a one-item batch and a stub evaluator. -/
theorem handle_api_batch_evaluate_invariants_witness :
    goodBatchResp.total_processed = goodBatchResp.results.length ∧
    goodBatchResp.results.length = goodBatch.length ∧
    (∀ j r, goodBatchResp.results[j]? = some r → idOf r = j) ∧
    goodBatchResp.successful + goodBatchResp.failed =
      goodBatchResp.total_processed ∧
    (∀ r ∈ goodBatchResp.results,
      statusOf r = "success" ∨ statusOf r = "error") :=
  handle_api_batch_evaluate_invariants stubEval goodBatch goodBatchResp rfl

/-- C9: the `/api/batch-evaluate` endpoint is capped at 100 items: a
longer `essays` array is rejected with the 400 error envelope before
any evaluation (the response is the same constant for every evaluator,
so no essay is evaluated), and an array of at most 100 items is never
rejected by the cap. -/
theorem handle_api_batch_evaluate_cap (essays : List EssayItem) :
    (essays.length > 100 →
      ∀ ev, handle_api_batch_evaluate ev essays =
        .error "Too many essays in batch (max 100)") ∧
    (essays.length ≤ 100 →
      ∀ ev, ∃ resp, handle_api_batch_evaluate ev essays = .ok resp) := by
  constructor
  · intro h ev
    unfold handle_api_batch_evaluate
    rw [if_pos h]
  · intro h ev
    have hn : ¬ essays.length > 100 := by omega
    simp only [handle_api_batch_evaluate, if_neg hn]
    exact ⟨_, rfl⟩

/-- Witness for C9 at a 101-item batch and a 1-item batch. -/
theorem handle_api_batch_evaluate_cap_witness :
    handle_api_batch_evaluate stubEval
        (List.replicate 101
          { essay_text := none, task_text := none, essay_type := none }) =
      .error "Too many essays in batch (max 100)" ∧
    ∃ resp, handle_api_batch_evaluate stubEval goodBatch = .ok resp :=
  ⟨(handle_api_batch_evaluate_cap _).1
      (by rw [List.length_replicate]; omega) stubEval,
   (handle_api_batch_evaluate_cap _).2
      (by rw [show goodBatch.length = 1 from rfl]; omega) stubEval⟩

/-- C7 counterexample: `EssayEvaluator.evaluate_batch_essays` on a
2-item sequence whose second item lacks `essay_text` does not return a
2-element array with item 1 flagged: the bare `essay_data['essay_text']`
subscript raises `KeyError`, aborting the whole batch. -/
theorem evaluate_batch_essays_keyerror_counterexample :
    evaluate_batch_essays (fun _ _ => .error "stub")
      [{ essay_text := some "Текст сочинения", task_text := some "Задание",
         essay_type := some 2 },
       { essay_text := none, task_text := some "Задание",
         essay_type := some 2 }] = .error "KeyError: essay_text" := by
  rfl

/-- C7 (amended): the `/api/batch-evaluate` handler (the exposed batch
path) isolates per-item failures: on a batch of at most 100 items whose
item `k` is missing a required field, it returns a result array of
length `N` in which entry `k` is an error entry tagged `id = k`, and
every well-formed item `j` is evaluated normally into a success entry
tagged `id = j`; `evaluate_batch_essays` itself, by contrast, raises
`KeyError` on such an item (see the counterexample). -/
theorem handle_api_batch_evaluate_isolates_failures
    (ev : String → Int → String → EssayEvaluation) (essays : List EssayItem)
    (k : Nat) (itk : EssayItem)
    (hcap : essays.length ≤ 100)
    (hitk : essays[k]? = some itk)
    (hbad : itk.essay_text = none ∨ itk.task_text = none) :
    ∃ resp, handle_api_batch_evaluate ev essays = .ok resp ∧
      resp.results.length = essays.length ∧
      (∃ msg, resp.results[k]? = some (.failure k msg)) ∧
      (∀ (j : Nat) (it : EssayItem) (et tt : String),
        essays[j]? = some it → it.essay_text = some et →
        it.task_text = some tt → (pyStrip et).data ≠ [] →
        resp.results[j]? = some (.success j (it.essay_type.getD 2)
          (ev et (it.essay_type.getD 2) tt)
          ((ev et (it.essay_type.getD 2) tt).H1 +
           (ev et (it.essay_type.getD 2) tt).H2 +
           (ev et (it.essay_type.getD 2) tt).H3 +
           (ev et (it.essay_type.getD 2) tt).H4))) := by
  refine ⟨{ results := (withIdx 0 essays).map (fun p => processItem ev p.1 p.2),
            total_processed :=
              ((withIdx 0 essays).map (fun p => processItem ev p.1 p.2)).length,
            successful :=
              (((withIdx 0 essays).map (fun p => processItem ev p.1 p.2)).filter
                (fun r => statusOf r == "success")).length,
            failed :=
              (((withIdx 0 essays).map (fun p => processItem ev p.1 p.2)).filter
                (fun r => statusOf r == "error")).length },
    ?_, ?_, ?_, ?_⟩
  · unfold handle_api_batch_evaluate
    rw [if_neg (by omega)]
  · show ((withIdx 0 essays).map (fun p => processItem ev p.1 p.2)).length =
      essays.length
    simp [withIdx_length]
  · show ∃ msg, ((withIdx 0 essays).map
        (fun p => processItem ev p.1 p.2))[k]? =
      some (BatchItemResult.failure k msg)
    rw [List.getElem?_map, withIdx_get?, hitk]
    simp only [Option.map_some']
    obtain ⟨et, tt, ty, eid⟩ := itk
    rcases hbad with hb | hb
    · cases hb
      cases tt with
      | none =>
        exact ⟨"Missing fields: essay_text, task_text", by
          simp [processItem, Nat.zero_add]⟩
      | some t =>
        exact ⟨"Missing fields: essay_text", by
          simp [processItem, Nat.zero_add]⟩
    · cases hb
      cases et with
      | none =>
        exact ⟨"Missing fields: essay_text, task_text", by
          simp [processItem, Nat.zero_add]⟩
      | some t =>
        exact ⟨"Missing fields: task_text", by
          simp [processItem, Nat.zero_add]⟩
  · intro j it et tt hj het htt hne
    show ((withIdx 0 essays).map (fun p => processItem ev p.1 p.2))[j]? =
      some (BatchItemResult.success j (it.essay_type.getD 2)
        (ev et (it.essay_type.getD 2) tt)
        ((ev et (it.essay_type.getD 2) tt).H1 +
         (ev et (it.essay_type.getD 2) tt).H2 +
         (ev et (it.essay_type.getD 2) tt).H3 +
         (ev et (it.essay_type.getD 2) tt).H4))
    rw [List.getElem?_map, withIdx_get?, hj]
    simp only [Option.map_some']
    obtain ⟨et', tt', ty', eid'⟩ := it
    cases het
    cases htt
    simp only [processItem, Nat.zero_add, if_neg hne]

/-- Witness for the amended C7 on a 2-item batch whose second item
lacks its essay text. -/
theorem handle_api_batch_evaluate_isolates_failures_witness :
    ∃ resp, handle_api_batch_evaluate stubEval
        [{ essay_text := some "Сочинение", task_text := some "Задание",
           essay_type := none },
         { essay_text := none, task_text := some "Задание",
           essay_type := none }] = .ok resp ∧
      resp.results.length =
        [({ essay_text := some "Сочинение", task_text := some "Задание",
            essay_type := none } : EssayItem),
         { essay_text := none, task_text := some "Задание",
           essay_type := none }].length ∧
      (∃ msg, resp.results[1]? = some (.failure 1 msg)) ∧
      (∀ (j : Nat) (it : EssayItem) (et tt : String),
        ([({ essay_text := some "Сочинение", task_text := some "Задание",
             essay_type := none } : EssayItem),
          { essay_text := none, task_text := some "Задание",
            essay_type := none }])[j]? = some it → it.essay_text = some et →
        it.task_text = some tt → (pyStrip et).data ≠ [] →
        resp.results[j]? = some (.success j (it.essay_type.getD 2)
          (stubEval et (it.essay_type.getD 2) tt)
          ((stubEval et (it.essay_type.getD 2) tt).H1 +
           (stubEval et (it.essay_type.getD 2) tt).H2 +
           (stubEval et (it.essay_type.getD 2) tt).H3 +
           (stubEval et (it.essay_type.getD 2) tt).H4))) :=
  handle_api_batch_evaluate_isolates_failures stubEval
    [{ essay_text := some "Сочинение", task_text := some "Задание",
       essay_type := none },
     { essay_text := none, task_text := some "Задание", essay_type := none }]
    1 { essay_text := none, task_text := some "Задание", essay_type := none }
    (by simp) rfl (Or.inl rfl)
